import Mathlib

/-!
Verification of the decorator examples in
02-Backend-Development/Python/examples/decorators-example.py.

The file shallowly embeds the value universe, the exception kinds and the
decorator wrappers of that script, and proves the behavioural properties
stated in the specification.  Python values are modelled by the inductive
type PyValue (integers, strings, and string-keyed dictionaries, which are
the only value shapes the script manipulates); exceptions by PyError; a
call either returns a value or raises, modelled by the Res type.
Observable side effects (print output, logger records, the wall clock and
an instrumentation counter of inner-callable entries) live in a World
record that every call threads through.
-/

/-- Python values occurring in the decorator examples: int, str and a
string-keyed dict (the return shape of create_user). -/
inductive PyValue where
  | pint : Int → PyValue
  | pstr : String → PyValue
  | pdict : List (String × PyValue) → PyValue

mutual
def decEqPyValue : (a b : PyValue) → Decidable (a = b)
  | .pint m, .pint n =>
    match decEq m n with
    | isTrue h => isTrue (by rw [h])
    | isFalse h => isFalse (by intro hh; cases hh; exact h rfl)
  | .pint _, .pstr _ => isFalse (by intro h; cases h)
  | .pint _, .pdict _ => isFalse (by intro h; cases h)
  | .pstr _, .pint _ => isFalse (by intro h; cases h)
  | .pstr a, .pstr b =>
    match decEq a b with
    | isTrue h => isTrue (by rw [h])
    | isFalse h => isFalse (by intro hh; cases hh; exact h rfl)
  | .pstr _, .pdict _ => isFalse (by intro h; cases h)
  | .pdict _, .pint _ => isFalse (by intro h; cases h)
  | .pdict _, .pstr _ => isFalse (by intro h; cases h)
  | .pdict l1, .pdict l2 =>
    match decEqPyPairs l1 l2 with
    | isTrue h => isTrue (by rw [h])
    | isFalse h => isFalse (by intro hh; cases hh; exact h rfl)

def decEqPyPairs : (l1 l2 : List (String × PyValue)) → Decidable (l1 = l2)
  | [], [] => isTrue rfl
  | [], _ :: _ => isFalse (by intro h; cases h)
  | _ :: _, [] => isFalse (by intro h; cases h)
  | (k1, v1) :: r1, (k2, v2) :: r2 =>
    match decEq k1 k2 with
    | isFalse h => isFalse (by intro hh; cases hh; exact h rfl)
    | isTrue hk =>
      match decEqPyValue v1 v2 with
      | isFalse h => isFalse (by intro hh; cases hh; exact h rfl)
      | isTrue hv =>
        match decEqPyPairs r1 r2 with
        | isFalse h => isFalse (by intro hh; cases hh; exact h rfl)
        | isTrue hr => isTrue (by rw [hk, hv, hr])
end

instance : DecidableEq PyValue := decEqPyValue

/-- A value is a scalar when it is an int or a str (not a dict). -/
def isScalar : PyValue → Bool
  | .pdict _ => false
  | _ => true

/-- The single-quote character as a one-character string, used by the
model of the Python repr of strings. -/
def pyQuote : String := "\x27"

/-- Decimal digit list of a natural number, most significant digit first,
with explicit fuel so that the definition is structurally recursive and
evaluates inside the kernel.  With fuel above the argument it agrees with
the decimal notation Python uses when formatting integers. -/
def natDigitsF : Nat → Nat → List Char
  | 0, _ => []
  | f+1, n => if n < 10 then [Nat.digitChar n] else natDigitsF f (n / 10) ++ [Nat.digitChar (n % 10)]

/-- Decimal notation of a natural number, as produced by Python str. -/
def natRepr (n : Nat) : String := ⟨natDigitsF (n + 1) n⟩

/-- Decimal notation of an integer, as produced by Python str and repr. -/
def intRepr : Int → String
  | .ofNat n => natRepr n
  | .negSucc n => "-" ++ natRepr (n + 1)

mutual
/-- Model of Python repr on the value universe.  Ints print in decimal,
strings are wrapped in single quotes (the script only manipulates strings
free of quote and escape characters, for which this is exactly the Python
behaviour), and dicts print their pairs with repr-ed keys and values. -/
def pyRepr : PyValue → String
  | .pint n => intRepr n
  | .pstr s => pyQuote ++ s ++ pyQuote
  | .pdict l => "\x7b" ++ pyReprPairs l ++ "\x7d"

/-- Comma-separated body of the Python repr of a dict. -/
def pyReprPairs : List (String × PyValue) → String
  | [] => ""
  | (k, v) :: rest =>
    pyQuote ++ k ++ pyQuote ++ ": " ++ pyRepr v ++ (if rest.isEmpty then "" else ", ") ++ pyReprPairs rest
end

/-- Model of Python str on the value universe: like repr except that a
string prints as itself, unquoted. -/
def pyStr : PyValue → String
  | .pint n => intRepr n
  | .pstr s => s
  | .pdict l => "\x7b" ++ pyReprPairs l ++ "\x7d"

/-- Join a list of strings with a comma-space separator, the model of the
Python join used when formatting argument lists. -/
def joinComma : List String → String
  | [] => ""
  | [s] => s
  | s :: rest => s ++ ", " ++ joinComma rest

/-- Model of Python str on an argument tuple: parentheses around the
comma-separated reprs of the elements, with the trailing comma of a
one-element tuple. -/
def pyStrTuple : List PyValue → String
  | [] => "()"
  | [v] => "(" ++ pyRepr v ++ ",)"
  | vs => "(" ++ joinComma (vs.map pyRepr) ++ ")"

/-- Model of Python str on a list of name-value pairs, as produced by
str(sorted(kwargs.items())): brackets around comma-separated pair
tuples. -/
def pyStrPairList (l : List (String × PyValue)) : String :=
  "[" ++ joinComma (l.map fun kv => "(" ++ pyQuote ++ kv.1 ++ pyQuote ++ ", " ++ pyRepr kv.2 ++ ")") ++ "]"

/-- The configured expected types of the validation decorator. -/
inductive PyType where
  | tint : PyType
  | tstr : PyType
  | tdict : PyType
deriving DecidableEq, Repr

/-- Python name of an expected type, as interpolated into the TypeError
message of the validation decorator. -/
def PyType.pyName : PyType → String
  | .tint => "int"
  | .tstr => "str"
  | .tdict => "dict"

/-- Python name of the runtime type of a value. -/
def pyTypeName : PyValue → String
  | .pint _ => "int"
  | .pstr _ => "str"
  | .pdict _ => "dict"

/-- Model of the isinstance check performed by the validation decorator. -/
def isinstance : PyValue → PyType → Bool
  | .pint _, .tint => true
  | .pstr _, .tstr => true
  | .pdict _, .tdict => true
  | _, _ => false

/-- The exception kinds the decorator script can raise.  TypeError is
raised by the validation decorator and by argument binding; every other
raise site in the script constructs a bare Exception with a message.
The retryExhausted constructor is modelled from the spec: the
specification names a RetryExhausted error that wraps the last underlying
error after all attempts fail, but the source defines no such class; the
constructor exists solely so that the specified behaviour is statable and
comparable with what the code does. -/
inductive PyError where
  | typeError : String → PyError
  | exception : String → PyError
  | retryExhausted : PyError → PyError
deriving DecidableEq, Repr

/-- Python class name of an exception, as interpolated by the logging
decorator. -/
def errTypeName : PyError → String
  | .typeError _ => "TypeError"
  | .exception _ => "Exception"
  | .retryExhausted _ => "RetryExhausted"

/-- Message text of an exception, as interpolated by the logging
decorator. -/
def errMsg : PyError → String
  | .typeError m => m
  | .exception m => m
  | .retryExhausted e => errMsg e

/-- Outcome of a Python call: either a returned value or a raised
exception. -/
inductive Res (α : Type) where
  | ok : α → Res α
  | exn : PyError → Res α
deriving DecidableEq, Repr

/-- True exactly when the outcome is a raised exception. -/
def Res.isErr : Res α → Bool
  | .exn _ => true
  | .ok _ => false

/-- Observable side effects of a call. -/
inductive Event where
  | printed : String → Event
  | logged : Nat → String → Event
  | loggedError : String → Event
deriving DecidableEq, Repr

/-- Mutable surroundings threaded through every call: the wall clock read
by time.time (in whole seconds; it does not advance during a call, so
measured durations are zero), an instrumentation counter of how many
times an instrumented inner callable has been entered, and the ordered
trace of print and logger output. -/
structure World where
  clock : Nat
  calls : Nat
  events : List Event
deriving DecidableEq, Repr

/-- Initial world: clock zero, no instrumented entries, empty trace. -/
def w0 : World := { clock := 0, calls := 0, events := [] }

/-- Append one observable event to the trace. -/
def World.emit (w : World) (e : Event) : World :=
  { w with events := w.events ++ [e] }

/-- Name and docstring of a callable, the metadata that functools.wraps
copies from the inner callable onto the wrapper. -/
structure PyMeta where
  name : String
  doc : Option String
deriving DecidableEq, Repr

/-- A Python callable: its metadata, its signature (parameter names with
optional defaults, none of the decorated examples declares a default),
and its behaviour on a positional-argument list and keyword-argument
pairs.  functools.wraps also exposes the signature of the inner callable
on the wrapper, which is why a wrapped callable keeps the sig field. -/
structure PyFunc where
  meta : PyMeta
  sig : List (String × Option PyValue)
  run : World → List PyValue → List (String × PyValue) → World × Res PyValue

/-- Instrumentation harness: a callable that behaves exactly like f but
bumps the calls counter of the world on entry, so that theorems can count
how often a wrapper actually enters its inner callable. -/
def instrument (f : PyFunc) : PyFunc :=
  { f with run := fun w args kwargs => f.run { w with calls := w.calls + 1 } args kwargs }

/-- A callable whose own behaviour never touches the instrumentation
counter, so that counter changes measure entries into instrumented inner
callables only. -/
def preservesCalls (f : PyFunc) : Prop :=
  ∀ w args kwargs, ((f.run w args kwargs).1).calls = w.calls

/-- Python calling convention, the model of inspect sig bind followed by
apply_defaults: positional arguments bind to the leading parameters,
keyword arguments must not rebind a positionally filled parameter and
must name a declared parameter, the remaining parameters take their
keyword value or their default, and a parameter left without a value is a
TypeError.  The bound mapping lists parameters in declaration order. -/
def bindOne (kwargs : List (String × PyValue)) : String × Option PyValue → Res (String × PyValue)
  | (name, dflt) =>
    match List.lookup name kwargs with
    | some v => .ok (name, v)
    | none =>
      match dflt with
      | some d => .ok (name, d)
      | none => .exn (.typeError ("missing a required argument: " ++ pyQuote ++ name ++ pyQuote))

/-- Bind every parameter of the given tail of the parameter list. -/
def bindRest (kwargs : List (String × PyValue)) : List (String × Option PyValue) → Res (List (String × PyValue))
  | [] => .ok []
  | p :: ps =>
    match bindOne kwargs p with
    | .exn e => .exn e
    | .ok b =>
      match bindRest kwargs ps with
      | .exn e => .exn e
      | .ok bs => .ok (b :: bs)

/-- Bind a full call to a parameter list; see bindOne for the rules. -/
def bindArgs (params : List (String × Option PyValue)) (args : List PyValue)
    (kwargs : List (String × PyValue)) : Res (List (String × PyValue)) :=
  if params.length < args.length then .exn (.typeError "too many positional arguments")
  else if kwargs.any (fun kv => (params.take args.length).any (fun p => p.1 == kv.1)) then
    .exn (.typeError "got multiple values for argument")
  else if kwargs.any (fun kv => !(params.any (fun p => p.1 == kv.1))) then
    .exn (.typeError "got an unexpected keyword argument")
  else
    match bindRest kwargs (params.drop args.length) with
    | .exn e => .exn e
    | .ok rest => .ok (((params.take args.length).zip args).map (fun pv => (pv.1.1, pv.2)) ++ rest)

/-- The better_decorator of the script: functools.wraps keeps the inner
metadata and signature, and the wrapper prints before delegating. -/
def better_decorator (func : PyFunc) : PyFunc :=
  { meta := func.meta, sig := func.sig,
    run := fun w args kwargs =>
      func.run (w.emit (.printed ("Calling " ++ func.meta.name))) args kwargs }

/-- Python percent-point-4-f formatting of a duration measured on the
whole-second clock of the model. -/
def formatSecs (d : Nat) : String := natRepr d ++ ".0000"

/-- The timer decorator: read the clock, run the inner callable, read the
clock again and print the elapsed time.  The source has no try or finally
around the inner call, so when the inner call raises, the second clock
read and the print are skipped and the exception propagates with no
timing report. -/
def timer (func : PyFunc) : PyFunc :=
  { meta := func.meta, sig := func.sig,
    run := fun w args kwargs =>
      let startTime := w.clock
      match func.run w args kwargs with
      | (w1, .ok v) =>
        (w1.emit (.printed (func.meta.name ++ " took " ++ formatSecs (w1.clock - startTime)
            ++ " seconds to execute")), .ok v)
      | (w1, .exn e) => (w1, .exn e) }

/-- The argument display of the logging decorator: str of each positional
argument and name-equals-str of each keyword argument, comma-joined, with
empty parts dropped by filter. -/
def formatCallArgs (args : List PyValue) (kwargs : List (String × PyValue)) : String :=
  let argsStr := joinComma (args.map pyStr)
  let kwargsStr := joinComma (kwargs.map fun kv => kv.1 ++ "=" ++ pyStr kv.2)
  joinComma (([argsStr, kwargsStr]).filter (fun s => s != ""))

/-- The logging level constant of the Python logging module. -/
def INFO : Nat := 20

/-- The log_calls decorator: log the call before delegating; on return
log the result; on an exception log the error through the error channel
and re-raise it unchanged. -/
def log_calls (level : Nat) (func : PyFunc) : PyFunc :=
  { meta := func.meta, sig := func.sig,
    run := fun w args kwargs =>
      let w1 := w.emit (.logged level
        ("Calling " ++ func.meta.name ++ "(" ++ formatCallArgs args kwargs ++ ")"))
      match func.run w1 args kwargs with
      | (w2, .ok v) =>
        (w2.emit (.logged level (func.meta.name ++ " returned: " ++ pyStr v)), .ok v)
      | (w2, .exn e) =>
        (w2.emit (.loggedError (func.meta.name ++ " raised " ++ errTypeName e ++ ": " ++ errMsg e)),
         .exn e) }

/-- Walk the configured name-to-type mapping in order and report the
first bound value failing its isinstance check, with the TypeError
message of the source naming the parameter, the expected type and the
actual type.  A configured name absent from the bound mapping is
skipped, as in the source. -/
def runValidation (expected : List (String × PyType)) (bound : List (String × PyValue)) : Option PyError :=
  match expected with
  | [] => none
  | (name, ty) :: rest =>
    match List.lookup name bound with
    | none => runValidation rest bound
    | some v =>
      if isinstance v ty then runValidation rest bound
      else some (.typeError (name ++ " must be " ++ ty.pyName ++ ", got " ++ pyTypeName v))

/-- The validate_types decorator: bind the supplied arguments against the
signature of the inner callable (defaults applied), type-check every
configured parameter, raise the TypeError on the first mismatch without
entering the inner callable, and otherwise delegate. -/
def validate_types (expected : List (String × PyType)) (func : PyFunc) : PyFunc :=
  { meta := func.meta, sig := func.sig,
    run := fun w args kwargs =>
      match bindArgs func.sig args kwargs with
      | .exn e => (w, .exn e)
      | .ok bound =>
        match runValidation expected bound with
        | some e => (w, .exn e)
        | none => func.run w args kwargs }

/-- Outcome of a retried call: the final state of whatever the inner
steps thread, the final result, how many times the inner callable was
invoked, and how many times time.sleep ran. -/
structure RetryResult (σ : Type) where
  state : σ
  result : Res PyValue
  invocations : Nat
  sleeps : Nat
deriving DecidableEq

/-- The attempt loop of the retry decorator, generic in the state the
inner step threads, with an emit parameter recording the print output of
the wrapper into that state.  The fifth argument counts the attempts that
remain, the sixth is the index of the current attempt.  Each failed
attempt records the exception; a failure with attempts remaining prints
the Attempt-failed-Retrying line and sleeps once before the next attempt
(the sleep modelled by counting, since the clock does not advance); a
failure on the last attempt prints the All-attempts-failed line, and the
recorded last exception is then re-raised.  The delay and maxAttempts
arguments are interpolated into those messages as in the source (the
model prints the delay as a whole number; the script uses whole-second
delays except one illustrative 0.5).  The source expression raise
last_exception with no recorded exception, reachable only with zero
configured attempts, is the Python TypeError on raising None. -/
def retryExec {σ : Type} (emitP : σ → String → σ) (delay maxAttempts : Nat)
    (step : Nat → σ → σ × Res PyValue) :
    Nat → Nat → σ → Option PyError → RetryResult σ
  | 0, _, s, last =>
    { state := s,
      result := .exn (last.getD (.typeError "exceptions must derive from BaseException")),
      invocations := 0, sleeps := 0 }
  | n+1, attempt, s, _ =>
    match step attempt s with
    | (s1, .ok v) => { state := s1, result := .ok v, invocations := 1, sleeps := 0 }
    | (s1, .exn e) =>
      if n = 0 then
        let s2 := emitP s1 ("All " ++ natRepr maxAttempts ++ " attempts failed.")
        { state := s2, result := .exn e, invocations := 1, sleeps := 0 }
      else
        let s2 := emitP s1 ("Attempt " ++ natRepr (attempt + 1) ++ " failed: " ++ errMsg e
          ++ ". Retrying in " ++ natRepr delay ++ " seconds...")
        let rest := retryExec emitP delay maxAttempts step n (attempt + 1) s2 (some e)
        { state := rest.state, result := rest.result,
          invocations := rest.invocations + 1, sleeps := rest.sleeps + 1 }

/-- The retry loop applied to an inner callable given as its sequence of
per-invocation outcomes (the i-th entry is what the i-th invocation
does), which captures an inner callable whose behaviour varies between
attempts.  This instance counts invocations and sleeps and keeps no
trace, so the emit parameter is inert and the delay (interpolated only
into dropped messages) is fixed at the source default of one second. -/
def retry (maxAttempts : Nat) (f : Nat → Res PyValue) : RetryResult Unit :=
  retryExec (fun s _ => s) 1 maxAttempts (fun i _ => ((), f i)) maxAttempts 0 () none

/-- The retry decorator at the callable level: functools.wraps keeps the
metadata, and the wrapper runs the attempt loop threading the world
through the attempts, recording the Retrying and All-attempts-failed
prints of the source on the trace.  The delay argument determines how
long each sleep blocks and appears in the Retrying message. -/
def retryDec (maxAttempts delay : Nat) (func : PyFunc) : PyFunc :=
  { meta := func.meta, sig := func.sig,
    run := fun w args kwargs =>
      let r := retryExec (fun w2 msg => w2.emit (.printed msg)) delay maxAttempts
        (fun _ s => func.run s args kwargs) maxAttempts 0 w none
      (r.state, r.result) }

/-- Relation ordering keyword pairs by name, the order Python sorted uses
on dict items when the names are distinct (names are distinct in any
call, so the name comparison never ties and the value component is never
compared). -/
def strLeB (a b : String) : Bool :=
  strLeB.go a.data b.data
where go : List Char → List Char → Bool
  | [], _ => true
  | _ :: _, [] => false
  | c :: cs, d :: ds =>
    if c.toNat < d.toNat then true
    else if d.toNat < c.toNat then false
    else go cs ds

/-- Keyword pairs compare by their name. -/
def kwLe (p q : String × PyValue) : Prop := strLeB p.1 q.1 = true

instance : DecidableRel kwLe := fun p q => instDecidableEqBool (strLeB p.1 q.1) true

/-- Model of sorted on the keyword-argument items: any sort by name; with
the distinct names of a call this is the unique name-sorted arrangement
Python produces. -/
def sortKw (l : List (String × PyValue)) : List (String × PyValue) :=
  List.insertionSort kwLe l

/-- The cache key of the memoize decorator:
str(args) + str(sorted(kwargs.items())). -/
def memoKey (args : List PyValue) (kwargs : List (String × PyValue)) : String :=
  pyStrTuple args ++ pyStrPairList (sortKw kwargs)

/-- A memoized callable: the wrapper owns a cache, threaded explicitly as
an association list from key strings to stored results in insertion
order. -/
structure MemoFunc where
  meta : PyMeta
  sig : List (String × Option PyValue)
  run : List (String × PyValue) → World → List PyValue → List (String × PyValue) →
    (List (String × PyValue) × World × Res PyValue)

/-- The memoize decorator: on a fresh key print Computing, invoke the
inner callable and store the result under the key (an inner exception
propagates before anything is stored); on a seen key print Cache hit and
return the stored result without invoking the inner callable. -/
def memoize (func : PyFunc) : MemoFunc :=
  { meta := func.meta, sig := func.sig,
    run := fun cache w args kwargs =>
      let key := memoKey args kwargs
      match List.lookup key cache with
      | some v =>
        (cache, w.emit (.printed ("Cache hit for " ++ func.meta.name ++ pyStrTuple args)), .ok v)
      | none =>
        let w1 := w.emit (.printed ("Computing " ++ func.meta.name ++ pyStrTuple args))
        match func.run w1 args kwargs with
        | (w2, .ok v) => (cache ++ [(key, v)], w2, .ok v)
        | (w2, .exn e) => (cache, w2, .exn e) }

/-- The cache_clear operation attached to a memoized callable. -/
def cache_clear (_cache : List (String × PyValue)) : List (String × PyValue) := []

/-- The size field of the cache_info operation attached to a memoized
callable. -/
def cache_info_size (cache : List (String × PyValue)) : Nat := cache.length

/-- One admission decision of the rate_limit decorator: drop the recorded
timestamps that fell out of the trailing window, reject when the
remaining count has reached the maximum, and otherwise record now and
accept.  An ok result means the inner callable is invoked now. -/
def rateLimitStep (maxCalls timeWindow now : Nat) (calls : List Nat) : List Nat × Res Unit :=
  let pruned := calls.filter (fun t => now - t < timeWindow)
  if maxCalls ≤ pruned.length then
    (pruned, .exn (.exception ("Rate limit exceeded: " ++ natRepr maxCalls ++ " calls per "
      ++ natRepr timeWindow ++ " seconds")))
  else
    (pruned ++ [now], .ok ())

/-- Run a sequence of admission decisions at the given call times,
returning the final recorded window and the per-call outcomes. -/
def rateLimitRun (maxCalls timeWindow : Nat) : List Nat → List Nat → List Nat × List (Res Unit)
  | [], calls => (calls, [])
  | t :: ts, calls =>
    let step := rateLimitStep maxCalls timeWindow t calls
    let rest := rateLimitRun maxCalls timeWindow ts step.1
    (rest.1, step.2 :: rest.2)

/-- A rate-limited callable: the wrapper owns the list of recorded
timestamps, threaded explicitly. -/
structure RateFunc where
  meta : PyMeta
  sig : List (String × Option PyValue)
  run : List Nat → World → List PyValue → List (String × PyValue) →
    (List Nat × World × Res PyValue)

/-- The rate_limit decorator: read the clock, prune, then either raise
the rate-limit Exception without invoking the inner callable or record
now and delegate. -/
def rate_limit (maxCalls timeWindow : Nat) (func : PyFunc) : RateFunc :=
  { meta := func.meta, sig := func.sig,
    run := fun calls w args kwargs =>
      match rateLimitStep maxCalls timeWindow w.clock calls with
      | (calls1, .exn e) => (calls1, w, .exn e)
      | (calls1, .ok _) =>
        let r := func.run w args kwargs
        (calls1, r.1, r.2) }

/-- Python multiplication restricted to the value universe: ints
multiply, a str times an int repeats the string, anything else is the
TypeError of unsupported operands. -/
def pyMul : PyValue → PyValue → Res PyValue
  | .pint a, .pint b => .ok (.pint (a * b))
  | .pstr s, .pint n => .ok (.pstr (String.join (List.replicate n.toNat s)))
  | .pint n, .pstr s => .ok (.pstr (String.join (List.replicate n.toNat s)))
  | a, b => .exn (.typeError ("unsupported operand types for *: " ++ pyTypeName a ++ " and " ++ pyTypeName b))

/-- The undecorated multiply function of the script: bind the call to
parameters x and y and return their product.  The catch-all arm is
unreachable because binding either fails or binds both parameters. -/
def multiply : PyFunc :=
  { meta := { name := "multiply", doc := some "Multiply two numbers with multiple decorators" },
    sig := [("x", none), ("y", none)],
    run := fun w args kwargs =>
      match bindArgs [("x", none), ("y", none)] args kwargs with
      | .exn e => (w, .exn e)
      | .ok bound =>
        match List.lookup "x" bound, List.lookup "y" bound with
        | some a, some b => (w, pyMul a b)
        | _, _ => (w, .exn (.typeError "unbound parameter")) }

/-- The decorator stack of the script on an arbitrary inner callable in
place of the multiply body: timer outermost, then log_calls at the
default INFO level, then validate_types configured with x and y as
ints. -/
def multiply_stack (func : PyFunc) : PyFunc :=
  timer (log_calls INFO (validate_types [("x", .tint), ("y", .tint)] func))

/-- The fully decorated multiply of the script. -/
def multiply_wrapped : PyFunc := multiply_stack multiply

/-- The undecorated create_user function of the script: bind the call
and return the user dict.  The catch-all arm is unreachable. -/
def create_user : PyFunc :=
  { meta := { name := "create_user", doc := some "Create a user with validated inputs" },
    sig := [("name", none), ("age", none), ("email", none)],
    run := fun w args kwargs =>
      match bindArgs [("name", none), ("age", none), ("email", none)] args kwargs with
      | .exn e => (w, .exn e)
      | .ok bound =>
        match List.lookup "name" bound, List.lookup "age" bound, List.lookup "email" bound with
        | some n, some a, some e => (w, .ok (.pdict [("name", n), ("age", a), ("email", e)]))
        | _, _, _ => (w, .exn (.typeError "unbound parameter")) }

/-- The decorated create_user of the script, validated with name and
email as strs and age as an int. -/
def create_user_wrapped : PyFunc :=
  validate_types [("name", .tstr), ("age", .tint), ("email", .tstr)] create_user

/-- The api_call function of the script: it declares no parameters, so a
call binds against the empty signature (any supplied argument is the
Python arity TypeError) and returns the canned response. -/
def api_call : PyFunc :=
  { meta := { name := "api_call", doc := some "Simulated API call" },
    sig := [],
    run := fun w args kwargs =>
      match bindArgs [] args kwargs with
      | .exn e => (w, .exn e)
      | .ok _ => (w, .ok (.pstr "API response")) }

/-- The undecorated greet function of the script (the inner callable
that better_decorator wraps): bind the call to its one parameter and
return the greeting built from the str of the argument. -/
def greet : PyFunc :=
  { meta := { name := "greet", doc := some "Greets a person by name" },
    sig := [("name", none)],
    run := fun w args kwargs =>
      match bindArgs [("name", none)] args kwargs with
      | .exn e => (w, .exn e)
      | .ok bound =>
        match List.lookup "name" bound with
        | some n => (w, .ok (.pstr ("Hello, " ++ pyStr n ++ "!")))
        | none => (w, .exn (.typeError "unbound parameter")) }

/-- True exactly for events on the print channel; the timing decorator is
the only wrapper in the multiply stack that prints, so filtering the
trace with this predicate isolates the timing reports. -/
def isTimerReport : Event → Bool
  | .printed _ => true
  | _ => false

/-- Value of a digit list read back as a decimal number. -/
def digitsVal (l : List Char) : Nat := l.foldl (fun a c => 10 * a + (c.toNat - 48)) 0

theorem digitsVal_append (l : List Char) (c : Char) :
    digitsVal (l ++ [c]) = 10 * digitsVal l + (c.toNat - 48) := by
  simp [digitsVal, List.foldl_append]

theorem digitChar_val : ∀ d, d < 10 → (Nat.digitChar d).toNat - 48 = d := by decide

theorem natDigitsF_val : ∀ f n, n < f → digitsVal (natDigitsF f n) = n := by
  intro f
  induction f with
  | zero => omega
  | succ f ih =>
    intro n hn
    rw [natDigitsF]
    split
    · simp only [digitsVal, List.foldl]
      have := digitChar_val n (by omega)
      omega
    · have hdiv : n / 10 < n := Nat.div_lt_self (by omega) (by omega)
      rw [digitsVal_append, ih (n / 10) (by omega), digitChar_val (n % 10) (by omega)]
      omega

theorem natRepr_inj {m n : Nat} (h : natRepr m = natRepr n) : m = n := by
  have hd : natDigitsF (m + 1) m = natDigitsF (n + 1) n := by
    have := congrArg String.data h
    simpa [natRepr] using this
  have hm := natDigitsF_val (m + 1) m (by omega)
  have hn := natDigitsF_val (n + 1) n (by omega)
  rw [hd] at hm
  omega

theorem natDigitsF_mem : ∀ f n c, c ∈ natDigitsF f n → 48 ≤ c.toNat ∧ c.toNat ≤ 57 := by
  intro f
  induction f with
  | zero => intro n c hc; simp [natDigitsF] at hc
  | succ f ih =>
    intro n c hc
    rw [natDigitsF] at hc
    split at hc
    · simp at hc
      subst hc
      rename_i h10
      revert h10
      revert n
      decide
    · simp at hc
      rcases hc with hc | hc
      · exact ih _ _ hc
      · subst hc
        have h10 : n % 10 < 10 := Nat.mod_lt _ (by omega)
        revert h10
        generalize n % 10 = d
        revert d
        decide

theorem natDigitsF_ne_nil (n : Nat) : natDigitsF (n + 1) n ≠ [] := by
  rw [natDigitsF]
  split <;> simp

theorem string_append_cancel_right {a b c : String} (h : a ++ c = b ++ c) : a = b := by
  have h2 := congrArg String.data h
  simp only [String.data_append] at h2
  exact String.ext (List.append_cancel_right h2)

theorem string_append_cancel_left {a b c : String} (h : a ++ b = a ++ c) : b = c := by
  have h2 := congrArg String.data h
  simp only [String.data_append] at h2
  exact String.ext (List.append_cancel_left h2)

theorem intRepr_data_negSucc (n : Nat) :
    (intRepr (.negSucc n)).data = '-' :: natDigitsF (n + 2) (n + 1) := by
  simp [intRepr, natRepr, String.data_append]

theorem intRepr_inj {i j : Int} (h : intRepr i = intRepr j) : i = j := by
  have hd := congrArg String.data h
  match i, j with
  | .ofNat m, .ofNat n =>
    exact congrArg Int.ofNat (natRepr_inj h)
  | .negSucc m, .negSucc n =>
    rw [intRepr_data_negSucc, intRepr_data_negSucc] at hd
    have hmn : natRepr (m + 1) = natRepr (n + 1) := by
      apply String.ext
      simpa [natRepr] using hd
    have := natRepr_inj hmn
    exact congrArg Int.negSucc (by omega)
  | .ofNat m, .negSucc n =>
    rw [intRepr_data_negSucc] at hd
    have hm : (intRepr (.ofNat m)).data = natDigitsF (m + 1) m := by
      simp [intRepr, natRepr]
    rw [hm] at hd
    obtain ⟨c, rest, hcr⟩ := List.exists_cons_of_ne_nil (natDigitsF_ne_nil m)
    rw [hcr] at hd
    have hcm : c ∈ natDigitsF (m + 1) m := by rw [hcr]; exact List.mem_cons_self _ _
    have hbound := natDigitsF_mem (m + 1) m c hcm
    have : c = '-' := by injection hd with h1 _
    subst this
    simp at hbound
  | .negSucc m, .ofNat n =>
    rw [intRepr_data_negSucc] at hd
    have hn : (intRepr (.ofNat n)).data = natDigitsF (n + 1) n := by
      simp [intRepr, natRepr]
    rw [hn] at hd
    obtain ⟨c, rest, hcr⟩ := List.exists_cons_of_ne_nil (natDigitsF_ne_nil n)
    rw [hcr] at hd
    have hcm : c ∈ natDigitsF (n + 1) n := by rw [hcr]; exact List.mem_cons_self _ _
    have hbound := natDigitsF_mem (n + 1) n c hcm
    have : '-' = c := by injection hd with h1 _
    subst this
    simp at hbound

theorem strLeB_go_total (x y : List Char) : strLeB.go x y = true ∨ strLeB.go y x = true := by
  induction x generalizing y with
  | nil => left; rfl
  | cons c cs ih =>
    cases y with
    | nil => right; rfl
    | cons d ds =>
      rw [strLeB.go, strLeB.go]
      rcases Nat.lt_trichotomy c.toNat d.toNat with h | h | h
      · left; simp [h]
      · have h1 : ¬ c.toNat < d.toNat := by omega
        have h2 : ¬ d.toNat < c.toNat := by omega
        simp [h1, h2]
        exact ih ds
      · right; simp [h]

theorem char_toNat_inj {c d : Char} (h : c.toNat = d.toNat) : c = d := by
  rw [← Char.ofNat_toNat c, h, Char.ofNat_toNat]

theorem strLeB_go_antisymm : ∀ x y, strLeB.go x y = true → strLeB.go y x = true → x = y := by
  intro x
  induction x with
  | nil =>
    intro y _ hyx
    cases y with
    | nil => rfl
    | cons d ds => simp [strLeB.go] at hyx
  | cons c cs ih =>
    intro y hxy hyx
    cases y with
    | nil => simp [strLeB.go] at hxy
    | cons d ds =>
      rw [strLeB.go] at hxy hyx
      rcases Nat.lt_trichotomy c.toNat d.toNat with h | h | h
      · have h2 : ¬ d.toNat < c.toNat := by omega
        simp [h, h2] at hyx
      · have h1 : ¬ c.toNat < d.toNat := by omega
        have h2 : ¬ d.toNat < c.toNat := by omega
        simp [h1, h2] at hxy hyx
        rw [char_toNat_inj h, ih ds hxy hyx]
      · have h1 : ¬ c.toNat < d.toNat := by omega
        simp [h, h1] at hxy

theorem strLeB_go_trans : ∀ x y z, strLeB.go x y = true → strLeB.go y z = true → strLeB.go x z = true := by
  intro x
  induction x with
  | nil => intro y z _ _; rfl
  | cons c cs ih =>
    intro y z hxy hyz
    cases y with
    | nil => simp [strLeB.go] at hxy
    | cons d ds =>
      cases z with
      | nil => simp [strLeB.go] at hyz
      | cons e es =>
        rw [strLeB.go] at hxy hyz ⊢
        rcases Nat.lt_trichotomy c.toNat d.toNat with h1 | h1 | h1
        · rcases Nat.lt_trichotomy d.toNat e.toNat with h2 | h2 | h2
          · rw [if_pos (show c.toNat < e.toNat by omega)]
          · rw [if_pos (show c.toNat < e.toNat by omega)]
          · rw [if_neg (by omega), if_pos h2] at hyz
            simp at hyz
        · rw [if_neg (by omega), if_neg (by omega)] at hxy
          rcases Nat.lt_trichotomy d.toNat e.toNat with h2 | h2 | h2
          · rw [if_pos (by omega)]
          · rw [if_neg (by omega), if_neg (by omega)] at hyz
            rw [if_neg (by omega), if_neg (by omega)]
            exact ih ds es hxy hyz
          · rw [if_neg (by omega), if_pos h2] at hyz
            simp at hyz
        · rw [if_neg (by omega), if_pos h1] at hxy
          simp at hxy

instance : IsTotal (String × PyValue) kwLe :=
  ⟨fun p q => strLeB_go_total p.1.data q.1.data⟩

instance : IsTrans (String × PyValue) kwLe :=
  ⟨fun p q r => strLeB_go_trans p.1.data q.1.data r.1.data⟩

theorem kwLe_key_eq {p q : String × PyValue} (hpq : kwLe p q) (hqp : kwLe q p) : p.1 = q.1 :=
  String.ext (strLeB_go_antisymm p.1.data q.1.data hpq hqp)

theorem sortKw_sorted (l : List (String × PyValue)) : (sortKw l).Sorted kwLe :=
  List.sorted_insertionSort kwLe l

theorem sortKw_perm (l : List (String × PyValue)) : (sortKw l).Perm l :=
  List.perm_insertionSort kwLe l

theorem sorted_key_nodup_unique :
    ∀ (l1 l2 : List (String × PyValue)), l1.Perm l2 → l1.Sorted kwLe → l2.Sorted kwLe →
      (l1.map Prod.fst).Nodup → l1 = l2 := by
  intro l1
  induction l1 with
  | nil =>
    intro l2 hp _ _ _
    exact (hp.nil_eq).symm ▸ rfl
  | cons a t1 ih =>
    intro l2 hp hs1 hs2 hnd
    cases l2 with
    | nil => exact absurd hp.symm.nil_eq (by simp)
    | cons b t2 =>
      by_cases hab : a = b
      · subst hab
        have ht : t1.Perm t2 := hp.cons_inv
        have := ih t2 ht (List.Sorted.of_cons hs1) (List.Sorted.of_cons hs2) (List.Nodup.of_cons hnd)
        rw [this]
      · exfalso
        have ha2 : a ∈ b :: t2 := hp.mem_iff.1 (List.mem_cons_self a t1)
        have hb1 : b ∈ a :: t1 := hp.symm.mem_iff.1 (List.mem_cons_self b t2)
        have hat2 : a ∈ t2 := by
          rcases ha2 with _ | h
          · exact absurd rfl hab
          · assumption
        have hbt1 : b ∈ t1 := by
          rcases hb1 with _ | h
          · exact absurd rfl (fun hh => hab hh.symm)
          · assumption
        have h1 : kwLe a b := List.rel_of_sorted_cons hs1 b hbt1
        have h2 : kwLe b a := List.rel_of_sorted_cons hs2 a hat2
        have hkey : a.1 = b.1 := kwLe_key_eq h1 h2
        have : a.1 ∉ t1.map Prod.fst := (List.nodup_cons.1 hnd).1
        exact this (hkey ▸ List.mem_map_of_mem Prod.fst hbt1)

theorem sortKw_perm_eq {k1 k2 : List (String × PyValue)} (hp : k1.Perm k2)
    (hnd : (k1.map Prod.fst).Nodup) : sortKw k1 = sortKw k2 := by
  apply sorted_key_nodup_unique
  · exact (sortKw_perm k1).trans (hp.trans (sortKw_perm k2).symm)
  · exact sortKw_sorted k1
  · exact sortKw_sorted k2
  · have : (sortKw k1).map Prod.fst |>.Perm (k1.map Prod.fst) := (sortKw_perm k1).map Prod.fst
    exact (this.nodup_iff).2 hnd

theorem memoKey_kwargs_perm (args : List PyValue) {k1 k2 : List (String × PyValue)}
    (hp : k1.Perm k2) (hnd : (k1.map Prod.fst).Nodup) :
    memoKey args k1 = memoKey args k2 := by
  unfold memoKey
  rw [sortKw_perm_eq hp hnd]

theorem intRepr_head_ne_quote (i : Int) (c : Char) (rest : List Char)
    (h : (intRepr i).data = c :: rest) : c ≠ '\x27' := by
  match i with
  | .ofNat n =>
    have hd : (intRepr (.ofNat n)).data = natDigitsF (n + 1) n := by
      simp [intRepr, natRepr]
    rw [hd] at h
    have hc : c ∈ natDigitsF (n + 1) n := by rw [h]; exact List.mem_cons_self _ _
    have hb := natDigitsF_mem (n + 1) n c hc
    intro hq
    subst hq
    simp at hb
  | .negSucc n =>
    rw [intRepr_data_negSucc] at h
    have : c = '-' := by injection h with h1 _; exact h1.symm
    subst this
    decide

theorem pstr_repr_data (s : String) :
    (pyRepr (.pstr s)).data = '\x27' :: (s.data ++ ['\x27']) := by
  simp [pyRepr, pyQuote, String.data_append]

theorem pyRepr_scalar_inj (v w : PyValue) (hv : isScalar v = true) (hw : isScalar w = true)
    (h : pyRepr v = pyRepr w) : v = w := by
  match v, w with
  | .pint i, .pint j =>
    have : intRepr i = intRepr j := h
    exact congrArg PyValue.pint (intRepr_inj this)
  | .pint i, .pstr t =>
    exfalso
    have hd := congrArg String.data h
    rw [pstr_repr_data] at hd
    exact intRepr_head_ne_quote i _ _ hd rfl
  | .pstr s, .pint j =>
    exfalso
    have hd := congrArg String.data h.symm
    rw [pstr_repr_data] at hd
    exact intRepr_head_ne_quote j _ _ hd rfl
  | .pstr s, .pstr t =>
    have hd := congrArg String.data h
    rw [pstr_repr_data, pstr_repr_data] at hd
    have h1 : s.data ++ ['\x27'] = t.data ++ ['\x27'] := by injection hd
    exact congrArg PyValue.pstr (String.ext (List.append_cancel_right h1))
  | .pdict l, _ => simp [isScalar] at hv
  | .pint _, .pdict _ => simp [isScalar] at hw
  | .pstr _, .pdict _ => simp [isScalar] at hw

theorem memoKey_single_data (v : PyValue) :
    (memoKey [v] []).data = '(' :: ((pyRepr v).data ++ [',', ')', '[', ']']) := by
  have : memoKey [v] [] = ("(" ++ pyRepr v ++ ",)") ++ ("[" ++ "" ++ "]") := rfl
  rw [this]
  simp [String.data_append]

theorem memoKey_single_ne (v w : PyValue) (hv : isScalar v = true) (hw : isScalar w = true)
    (hne : v ≠ w) : memoKey [v] [] ≠ memoKey [w] [] := by
  intro h
  apply hne
  apply pyRepr_scalar_inj v w hv hw
  have hd := congrArg String.data h
  rw [memoKey_single_data, memoKey_single_data] at hd
  have h1 : (pyRepr v).data ++ [',', ')', '[', ']'] = (pyRepr w).data ++ [',', ')', '[', ']'] := by
    injection hd
  exact String.ext (List.append_cancel_right h1)

theorem memoKey_kw_single_eq (name : String) (v : PyValue) :
    memoKey [] [(name, v)] =
      "()" ++ ("[" ++ ("(" ++ pyQuote ++ name ++ pyQuote ++ ", " ++ pyRepr v ++ ")") ++ "]") := rfl

theorem memoKey_positional_vs_keyword_ne (v : PyValue) (name : String) :
    memoKey [v] [] ≠ memoKey [] [(name, v)] := by
  intro h
  have hl := congrArg String.length h
  have h1 : memoKey [v] [] = ("(" ++ pyRepr v ++ ",)") ++ ("[" ++ "" ++ "]") := rfl
  rw [h1, memoKey_kw_single_eq] at hl
  simp only [String.length_append] at hl
  have e1 : ("(" : String).length = 1 := rfl
  have e2 : (",)" : String).length = 2 := rfl
  have e3 : ("[" : String).length = 1 := rfl
  have e4 : ("]" : String).length = 1 := rfl
  have e5 : ("" : String).length = 0 := rfl
  have e6 : ("()" : String).length = 2 := rfl
  have e7 : (", " : String).length = 2 := rfl
  have e8 : (")" : String).length = 1 := rfl
  have e9 : (pyQuote : String).length = 1 := rfl
  rw [e1, e2, e3, e4, e5, e6, e7, e8, e9] at hl
  omega

theorem retry_exec_ok (f : Nat → Res PyValue) (v : PyValue) (M : Nat) :
    ∀ (k attempt left : Nat) (last : Option PyError),
      k < left → (∀ i, i < k → (f (attempt + i)).isErr = true) → f (attempt + k) = .ok v →
      (retryExec (fun s _ => s) 1 M (fun i _ => ((), f i)) left attempt () last).result = .ok v ∧
      (retryExec (fun s _ => s) 1 M (fun i _ => ((), f i)) left attempt () last).invocations = k + 1 := by
  intro k
  induction k with
  | zero =>
    intro attempt left last hk _ hok
    cases left with
    | zero => omega
    | succ n =>
      have h0 : f attempt = .ok v := by simpa using hok
      simp [retryExec, h0]
  | succ k ih =>
    intro attempt left last hk hfail hok
    cases left with
    | zero => omega
    | succ n =>
      have h0 : (f attempt).isErr = true := by
        have := hfail 0 (by omega)
        simpa using this
      obtain ⟨e, he⟩ : ∃ e, f attempt = .exn e := by
        cases hfe : f attempt with
        | ok _ => rw [hfe] at h0; simp [Res.isErr] at h0
        | exn e => exact ⟨e, rfl⟩
      have hfail2 : ∀ i, i < k → (f (attempt + 1 + i)).isErr = true := by
        intro i hi
        have h2 := hfail (i + 1) (by omega)
        have h3 : attempt + 1 + i = attempt + (i + 1) := by omega
        rw [h3]
        exact h2
      have hok2 : f (attempt + 1 + k) = .ok v := by
        have h3 : attempt + 1 + k = attempt + (k + 1) := by omega
        rw [h3]
        exact hok
      have hn : n ≠ 0 := by omega
      have hrest := ih (attempt + 1) n (some e) (by omega) hfail2 hok2
      simp [retryExec, he, hn]
      exact ⟨hrest.1, by rw [hrest.2]⟩

theorem retry_exec_fail {f : Nat → Res PyValue} {g : Nat → PyError} (hf : ∀ i, f i = .exn (g i))
    (M : Nat) :
    ∀ (left attempt : Nat) (last : Option PyError), 1 ≤ left →
      (retryExec (fun s _ => s) 1 M (fun i _ => ((), f i)) left attempt () last).result =
        .exn (g (attempt + left - 1)) ∧
      (retryExec (fun s _ => s) 1 M (fun i _ => ((), f i)) left attempt () last).invocations
        = left := by
  intro left
  induction left with
  | zero => omega
  | succ n ih =>
    intro attempt last _
    simp only [retryExec, hf attempt]
    cases n with
    | zero => simp [retryExec]
    | succ m =>
      have hrest := ih (attempt + 1) (some (g attempt)) (by omega)
      have hidx : attempt + 1 + (m + 1) - 1 = attempt + (m + 1 + 1) - 1 := by omega
      rw [hidx] at hrest
      have hm : m + 1 ≠ 0 := by omega
      simp only [hm, if_false]
      rw [hrest.1, hrest.2]
      simp

theorem instrument_run (f : PyFunc) (w : World) (args : List PyValue)
    (kwargs : List (String × PyValue)) :
    (instrument f).run w args kwargs = f.run { w with calls := w.calls + 1 } args kwargs := rfl

theorem emit_calls (w : World) (e : Event) : (w.emit e).calls = w.calls := rfl

theorem memoize_miss_run (func : PyFunc) (cache : List (String × PyValue)) (w : World)
    (args : List PyValue) (kwargs : List (String × PyValue))
    (hmiss : List.lookup (memoKey args kwargs) cache = none) :
    (memoize func).run cache w args kwargs =
      match func.run (w.emit (.printed ("Computing " ++ func.meta.name ++ pyStrTuple args))) args kwargs with
      | (w2, .ok v) => (cache ++ [(memoKey args kwargs, v)], w2, .ok v)
      | (w2, .exn e) => (cache, w2, .exn e) := by
  simp [memoize, hmiss]

theorem memoize_hit_run (func : PyFunc) (cache : List (String × PyValue)) (w : World)
    (args : List PyValue) (kwargs : List (String × PyValue)) (v : PyValue)
    (hhit : List.lookup (memoKey args kwargs) cache = some v) :
    (memoize func).run cache w args kwargs =
      (cache, w.emit (.printed ("Cache hit for " ++ func.meta.name ++ pyStrTuple args)), .ok v) := by
  simp [memoize, hhit]

theorem instrument_preserves (f : PyFunc) (hpres : preservesCalls f) (w : World)
    (args : List PyValue) (kwargs : List (String × PyValue)) :
    (((instrument f).run w args kwargs).1).calls = w.calls + 1 := by
  rw [instrument_run]
  exact hpres _ args kwargs

theorem memo_same_args (func : PyFunc) (hpres : preservesCalls func) (w : World)
    (args : List PyValue) (kwargs : List (String × PyValue))
    (c1 : List (String × PyValue)) (w1 : World) (v : PyValue)
    (h1 : (memoize (instrument func)).run [] w args kwargs = (c1, w1, .ok v)) :
    w1.calls = w.calls + 1 ∧
    (memoize (instrument func)).run c1 w1 args kwargs =
      (c1, w1.emit (.printed ("Cache hit for " ++ func.meta.name ++ pyStrTuple args)), .ok v) := by
  rw [memoize_miss_run (instrument func) [] w args kwargs (by rfl)] at h1
  rcases hres : (instrument func).run
      (w.emit (.printed ("Computing " ++ (instrument func).meta.name ++ pyStrTuple args)))
      args kwargs with ⟨wf, rf⟩
  rw [hres] at h1
  cases rf with
  | exn e => simp at h1
  | ok vv =>
    simp only at h1
    have h2 := h1
    simp only [List.nil_append, Prod.mk.injEq, Res.ok.injEq] at h2
    obtain ⟨hc1, hw1, hv⟩ := h2
    subst hc1
    subst hw1
    subst hv
    constructor
    · have h4 := instrument_preserves func hpres
        (w.emit (.printed ("Computing " ++ (instrument func).meta.name ++ pyStrTuple args)))
        args kwargs
      rw [hres] at h4
      simpa [World.emit] using h4
    · apply memoize_hit_run
      simp [List.lookup]

theorem memo_miss_calls (func : PyFunc) (hpres : preservesCalls func)
    (cache : List (String × PyValue)) (w : World)
    (args : List PyValue) (kwargs : List (String × PyValue))
    (hmiss : List.lookup (memoKey args kwargs) cache = none)
    (c2 : List (String × PyValue)) (w2 : World) (r2 : Res PyValue)
    (h : (memoize (instrument func)).run cache w args kwargs = (c2, w2, r2)) :
    w2.calls = w.calls + 1 ∧ (∀ v, r2 = .ok v → c2 = cache ++ [(memoKey args kwargs, v)]) ∧
      (r2.isErr = true → c2 = cache) := by
  rw [memoize_miss_run (instrument func) cache w args kwargs hmiss] at h
  rcases hres : (instrument func).run
      (w.emit (.printed ("Computing " ++ (instrument func).meta.name ++ pyStrTuple args)))
      args kwargs with ⟨wf, rf⟩
  rw [hres] at h
  have hw : wf.calls = w.calls + 1 := by
    have h4 := instrument_preserves func hpres
      (w.emit (.printed ("Computing " ++ (instrument func).meta.name ++ pyStrTuple args)))
      args kwargs
    rw [hres] at h4
    simpa [World.emit] using h4
  cases rf with
  | ok v =>
    simp only [Prod.mk.injEq] at h
    obtain ⟨hc, hww, hr⟩ := h
    subst hc
    subst hww
    subst hr
    refine ⟨hw, ?_, ?_⟩
    · intro u hu
      have : v = u := by injection hu
      rw [this]
    · intro hisErr
      simp [Res.isErr] at hisErr
  | exn e =>
    simp only [Prod.mk.injEq] at h
    obtain ⟨hc, hww, hr⟩ := h
    subst hc
    subst hww
    subst hr
    refine ⟨hw, ?_, fun _ => rfl⟩
    intro u hu
    exact absurd hu (by simp)

theorem memo_two_misses (func : PyFunc) (hpres : preservesCalls func) (w : World)
    (a1 : List PyValue) (k1 : List (String × PyValue))
    (a2 : List PyValue) (k2 : List (String × PyValue))
    (hne : memoKey a1 k1 ≠ memoKey a2 k2)
    (c1 : List (String × PyValue)) (w1 : World) (r1 : Res PyValue)
    (h1 : (memoize (instrument func)).run [] w a1 k1 = (c1, w1, r1))
    (c2 : List (String × PyValue)) (w2 : World) (r2 : Res PyValue)
    (h2 : (memoize (instrument func)).run c1 w1 a2 k2 = (c2, w2, r2)) :
    w2.calls = w.calls + 2 ∧ (∀ v1 v2, r1 = .ok v1 → r2 = .ok v2 → c2.length = 2) := by
  obtain ⟨hcall1, hok1, herr1⟩ := memo_miss_calls func hpres [] w a1 k1 rfl c1 w1 r1 h1
  have hmiss2 : List.lookup (memoKey a2 k2) c1 = none := by
    cases r1 with
    | ok v =>
      rw [hok1 v rfl]
      have hbeq : (memoKey a2 k2 == memoKey a1 k1) = false :=
        beq_eq_false_iff_ne.mpr (fun h => hne h.symm)
      simp [List.lookup, hbeq]
    | exn e =>
      rw [herr1 rfl]
      rfl
  obtain ⟨hcall2, hok2, _⟩ := memo_miss_calls func hpres c1 w1 a2 k2 hmiss2 c2 w2 r2 h2
  constructor
  · omega
  · intro v1 v2 hv1 hv2
    rw [hok2 v2 hv2, hok1 v1 hv1]
    simp

theorem runValidation_some_shape :
    ∀ (expected : List (String × PyType)) (bound : List (String × PyValue)) (e : PyError),
      runValidation expected bound = some e →
      ∃ name ty v, (name, ty) ∈ expected ∧ List.lookup name bound = some v ∧
        isinstance v ty = false ∧
        e = .typeError (name ++ " must be " ++ ty.pyName ++ ", got " ++ pyTypeName v) := by
  intro expected
  induction expected with
  | nil => intro bound e h; simp [runValidation] at h
  | cons p rest ih =>
    intro bound e h
    obtain ⟨name, ty⟩ := p
    rw [runValidation] at h
    cases hl : List.lookup name bound with
    | none =>
      rw [hl] at h
      obtain ⟨n2, t2, v2, hmem, hlk, hinst, heq⟩ := ih bound e h
      exact ⟨n2, t2, v2, List.mem_cons_of_mem _ hmem, hlk, hinst, heq⟩
    | some v =>
      rw [hl] at h
      by_cases hiv : isinstance v ty = true
      · simp only [hiv, if_true] at h
        obtain ⟨n2, t2, v2, hmem, hlk, hinst, heq⟩ := ih bound e h
        exact ⟨n2, t2, v2, List.mem_cons_of_mem _ hmem, hlk, hinst, heq⟩
      · simp only [hiv, if_false] at h
        refine ⟨name, ty, v, List.mem_cons_self _ _, hl, by simpa using hiv, ?_⟩
        exact (Option.some.inj h).symm

theorem validate_types_mismatch (expected : List (String × PyType)) (func : PyFunc)
    (w : World) (args : List PyValue) (kwargs : List (String × PyValue))
    (bound : List (String × PyValue)) (e : PyError)
    (hbind : bindArgs func.sig args kwargs = .ok bound)
    (hval : runValidation expected bound = some e) :
    (validate_types expected func).run w args kwargs = (w, .exn e) := by
  simp [validate_types, hbind, hval]

theorem validate_types_pass (expected : List (String × PyType)) (func : PyFunc)
    (w : World) (args : List PyValue) (kwargs : List (String × PyValue))
    (bound : List (String × PyValue))
    (hbind : bindArgs func.sig args kwargs = .ok bound)
    (hval : runValidation expected bound = none) :
    (validate_types expected func).run w args kwargs = func.run w args kwargs := by
  simp [validate_types, hbind, hval]

theorem rate_filter_absorb (tw now t : Nat) (h : now ≤ t) (l : List Nat) :
    (l.filter (fun x => now - x < tw)).filter (fun x => t - x < tw) =
      l.filter (fun x => t - x < tw) := by
  rw [List.filter_filter]
  apply List.filter_congr
  intro x _
  by_cases h2 : t - x < tw
  · have h3 : now - x < tw := by omega
    simp [h2, h3]
  · simp [h2]

theorem rateLimitRun_pruned_decisions (mc tw now : Nat) (calls : List Nat) (ts : List Nat)
    (hts : ∀ t ∈ ts, now ≤ t) :
    (rateLimitRun mc tw ts (calls.filter (fun x => now - x < tw))).2 =
      (rateLimitRun mc tw ts calls).2 := by
  cases ts with
  | nil => rfl
  | cons t rest =>
    have hstep : rateLimitStep mc tw t (calls.filter (fun x => now - x < tw)) =
        rateLimitStep mc tw t calls := by
      unfold rateLimitStep
      rw [rate_filter_absorb tw now t (hts t (List.mem_cons_self _ _)) calls]
    rw [rateLimitRun, rateLimitRun, hstep]

/-- C1: for the retry decorator with maximum attempts m, an inner
callable failing its first k-1 invocations and succeeding on the k-th
(k at most m) yields the success result after exactly k invocations,
and an inner callable failing every invocation leaves the wrapped call
failing after exactly m invocations. -/
theorem retry_invocation_counts (m : Nat) (f : Nat → Res PyValue) :
    (∀ k v, 1 ≤ k → k ≤ m → (∀ i, i < k - 1 → (f i).isErr = true) → f (k - 1) = .ok v →
      (retry m f).result = .ok v ∧ (retry m f).invocations = k)
    ∧ ((∀ i, (f i).isErr = true) → 1 ≤ m →
      (retry m f).result.isErr = true ∧ (retry m f).invocations = m) := by
  constructor
  · intro k v hk hkm hfail hok
    have hstep := retry_exec_ok f v m (k - 1) 0 m none (by omega)
      (fun i hi => by simpa using hfail i (by omega))
      (by simpa using hok)
    refine ⟨hstep.1, ?_⟩
    rw [show retry m f
        = retryExec (fun s _ => s) 1 m (fun i _ => ((), f i)) m 0 () none from rfl, hstep.2]
    omega
  · intro hfail hm
    have hfg : ∀ i, f i = .exn (match f i with | .exn e => e | .ok _ => PyError.exception "" : PyError) := by
      intro i
      cases hfe : f i with
      | ok v =>
        have hx := hfail i
        rw [hfe] at hx
        simp [Res.isErr] at hx
      | exn e => simp [hfe]
    have hstep := retry_exec_fail hfg m m 0 none hm
    refine ⟨?_, hstep.2⟩
    rw [show retry m f
        = retryExec (fun s _ => s) 1 m (fun i _ => ((), f i)) m 0 () none from rfl, hstep.1]
    rfl

/-- C1 witness: with three configured attempts, a callable failing twice
and then succeeding returns the success after three invocations, and a
callable that always fails leaves the wrapped call failing after three
invocations. -/
theorem retry_invocation_counts_witness :
    ((retry 3 (fun i => if i < 2 then Res.exn (.exception "Random failure!")
        else Res.ok (.pstr "Success!"))).result = .ok (.pstr "Success!")
      ∧ (retry 3 (fun i => if i < 2 then Res.exn (.exception "Random failure!")
        else Res.ok (.pstr "Success!"))).invocations = 3)
    ∧ ((retry 3 (fun _ => Res.exn (.exception "Random failure!"))).result.isErr = true
      ∧ (retry 3 (fun _ => Res.exn (.exception "Random failure!"))).invocations = 3) := by
  constructor
  · exact (retry_invocation_counts 3 _).1 3 (.pstr "Success!") (by omega) (by omega)
      (fun i hi => by
        have h2 : i < 2 := by omega
        simp [h2, Res.isErr])
      (by simp)
  · exact (retry_invocation_counts 3 _).2 (fun i => rfl) (by omega)

/-- C6 counterexample: with two configured attempts and an inner callable
that always raises the same Exception, the wrapped call raises that very
Exception, not a RetryExhausted wrapper around it, refuting the claim
that the final failure is surfaced as a RetryExhausted error. -/
theorem retry_no_retryExhausted_cex :
    (retry 2 (fun _ => Res.exn (.exception "Random failure!"))).result =
      .exn (.exception "Random failure!")
    ∧ (retry 2 (fun _ => Res.exn (.exception "Random failure!"))).result ≠
      .exn (.retryExhausted (.exception "Random failure!")) := by
  constructor
  · decide
  · decide

/-- C6 amended: when every invocation of the inner callable fails, the
wrapped call re-raises the last observed error itself, unchanged in
identity and kind; no RetryExhausted wrapper is involved because the
source simply re-raises last_exception. -/
theorem retry_preserves_last_error (m : Nat) (f : Nat → Res PyValue) (g : Nat → PyError)
    (hm : 1 ≤ m) (hf : ∀ i, f i = .exn (g i)) :
    (retry m f).result = .exn (g (m - 1)) ∧ (retry m f).invocations = m := by
  have hstep := retry_exec_fail hf m m 0 none hm
  simpa using hstep

/-- C6 witness: two attempts over a callable always raising boom end with
boom itself re-raised after two invocations. -/
theorem retry_preserves_last_error_witness :
    (retry 2 (fun _ => Res.exn (.exception "boom"))).result = .exn (.exception "boom")
    ∧ (retry 2 (fun _ => Res.exn (.exception "boom"))).invocations = 2 :=
  retry_preserves_last_error 2 _ (fun _ => .exception "boom") (by omega) (fun _ => rfl)

/-- C8: with maximum attempts one, the retry decorator is a plain
pass-through with no delay: the outcome of the single invocation is
returned or re-raised as is, the inner callable runs exactly once and
no sleep ever happens.  At the callable level a success is returned
exactly as the inner call produced it, world included; a failure is
re-raised immediately with the same error and world, the wrapper only
printing its All-attempts-failed diagnostic line first, as the source
does on the last attempt. -/
theorem retry_single_attempt_passthrough (delay : Nat) (f : Nat → Res PyValue) (func : PyFunc)
    (w : World) (args : List PyValue) (kwargs : List (String × PyValue)) :
    (retry 1 f).result = f 0 ∧ (retry 1 f).invocations = 1 ∧ (retry 1 f).sleeps = 0
    ∧ (∀ w1 v, func.run w args kwargs = (w1, .ok v) →
        (retryDec 1 delay func).run w args kwargs = (w1, .ok v))
    ∧ (∀ w1 e, func.run w args kwargs = (w1, .exn e) →
        (retryDec 1 delay func).run w args kwargs =
          (w1.emit (.printed "All 1 attempts failed."), .exn e)) := by
  refine ⟨?_, ?_, ?_, ?_, ?_⟩
  · cases hf : f 0 <;> simp [retry, retryExec, hf]
  · cases hf : f 0 <;> simp [retry, retryExec, hf]
  · cases hf : f 0 <;> simp [retry, retryExec, hf]
  · intro w1 v hr
    simp [retryDec, retryExec, hr]
  · intro w1 e hr
    simp [retryDec, retryExec, hr,
      show ("All " ++ natRepr 1 ++ " attempts failed." : String) = "All 1 attempts failed."
        from by decide]

/-- C8 witness: retrying api_call once passes its response through with
the world untouched, while a single failing attempt (api_call invoked
with an argument its empty signature rejects) re-raises the arity
TypeError at once, with only the diagnostic line printed, one invocation
and no sleep. -/
theorem retry_single_attempt_passthrough_witness :
    (retry 1 (fun _ => Res.exn (.typeError "too many positional arguments"))).invocations = 1
    ∧ (retry 1 (fun _ => Res.exn (.typeError "too many positional arguments"))).sleeps = 0
    ∧ (retryDec 1 5 api_call).run w0 [] [] = (w0, .ok (.pstr "API response"))
    ∧ (retryDec 1 5 api_call).run w0 [.pint 1] [] =
        (w0.emit (.printed "All 1 attempts failed."),
         .exn (.typeError "too many positional arguments")) := by
  refine ⟨?_, ?_, ?_, ?_⟩
  · exact (retry_single_attempt_passthrough 5
      (fun _ => Res.exn (.typeError "too many positional arguments"))
      api_call w0 [] []).2.1
  · exact (retry_single_attempt_passthrough 5
      (fun _ => Res.exn (.typeError "too many positional arguments"))
      api_call w0 [] []).2.2.1
  · exact (retry_single_attempt_passthrough 5
      (fun _ => Res.exn (.typeError "too many positional arguments"))
      api_call w0 [] []).2.2.2.1 w0 (.pstr "API response") (by decide)
  · exact (retry_single_attempt_passthrough 5
      (fun _ => Res.exn (.typeError "too many positional arguments"))
      api_call w0 [.pint 1] []).2.2.2.2 w0 (.typeError "too many positional arguments") (by decide)

/-- C7: functools.wraps makes every wrapper of the script keep the name
and docstring (the meta record) of its inner callable: the with-wraps
basic decorator and the timing, logging, validation, retry, memoization
and rate-limiting decorators all preserve the metadata. -/
theorem wraps_preserves_metadata (func : PyFunc) (level maxAttempts delay maxCalls timeWindow : Nat)
    (expected : List (String × PyType)) :
    (better_decorator func).meta = func.meta
    ∧ (timer func).meta = func.meta
    ∧ (log_calls level func).meta = func.meta
    ∧ (validate_types expected func).meta = func.meta
    ∧ (retryDec maxAttempts delay func).meta = func.meta
    ∧ (memoize func).meta = func.meta
    ∧ (rate_limit maxCalls timeWindow func).meta = func.meta :=
  ⟨rfl, rfl, rfl, rfl, rfl, rfl, rfl⟩

/-- C3: memoization invokes the inner callable exactly once for two
calls with the same arguments, the second call returning the stored
result from the cache; calls whose keys differ each invoke the inner
callable; distinct scalar single arguments always produce distinct keys;
cache_clear resets the entry count to zero; and the key is insensitive
to the order in which the keyword arguments are supplied. -/
theorem memoize_cache_behavior :
    (∀ (func : PyFunc) (w : World) (args : List PyValue) (kwargs : List (String × PyValue))
        (c1 : List (String × PyValue)) (w1 : World) (v : PyValue),
        preservesCalls func →
        (memoize (instrument func)).run [] w args kwargs = (c1, w1, .ok v) →
        w1.calls = w.calls + 1 ∧
        (memoize (instrument func)).run c1 w1 args kwargs =
          (c1, w1.emit (.printed ("Cache hit for " ++ func.meta.name ++ pyStrTuple args)), .ok v))
    ∧ (∀ (func : PyFunc) (w : World) (a1 : List PyValue) (k1 : List (String × PyValue))
        (a2 : List PyValue) (k2 : List (String × PyValue))
        (c1 : List (String × PyValue)) (w1 : World) (r1 : Res PyValue)
        (c2 : List (String × PyValue)) (w2 : World) (r2 : Res PyValue),
        preservesCalls func → memoKey a1 k1 ≠ memoKey a2 k2 →
        (memoize (instrument func)).run [] w a1 k1 = (c1, w1, r1) →
        (memoize (instrument func)).run c1 w1 a2 k2 = (c2, w2, r2) →
        w2.calls = w.calls + 2)
    ∧ (∀ v u : PyValue, isScalar v = true → isScalar u = true → v ≠ u →
        memoKey [v] [] ≠ memoKey [u] [])
    ∧ (∀ cache, cache_info_size (cache_clear cache) = 0)
    ∧ (∀ (args : List PyValue) (k1 k2 : List (String × PyValue)),
        k1.Perm k2 → (k1.map Prod.fst).Nodup → memoKey args k1 = memoKey args k2) := by
  refine ⟨?_, ?_, ?_, fun _ => rfl, ?_⟩
  · intro func w args kwargs c1 w1 v hpres h1
    exact memo_same_args func hpres w args kwargs c1 w1 v h1
  · intro func w a1 k1 a2 k2 c1 w1 r1 c2 w2 r2 hpres hne h1 h2
    exact (memo_two_misses func hpres w a1 k1 a2 k2 hne c1 w1 r1 h1 c2 w2 r2 h2).1
  · intro v u hv hu hne
    exact memoKey_single_ne v u hv hu hne
  · intro args k1 k2 hp hnd
    exact memoKey_kwargs_perm args hp hnd

/-- The behaviour of api_call never touches the instrumentation counter:
both its arms return the incoming world. -/
theorem api_call_preserves : preservesCalls api_call := by
  intro w args kwargs
  cases h : bindArgs [] args kwargs <;> simp [api_call, h]

/-- The behaviour of greet never touches the instrumentation counter:
every arm returns the incoming world. -/
theorem greet_preserves : preservesCalls greet := by
  intro w args kwargs
  cases h : bindArgs [("name", none)] args kwargs with
  | exn e => simp [greet, h]
  | ok bound => cases h2 : List.lookup "name" bound <;> simp [greet, h, h2]

/-- C3 witness: memoizing the one-parameter greet, a first call on
argument 3 computes and a second identical call hits the cache without a
further invocation; two calls on the distinct arguments 3 and 4 invoke
the inner callable twice; keys of 3 and 4 differ; clearing a one-entry
cache leaves zero entries; and the key is the same however the keyword
pairs are ordered. -/
theorem memoize_cache_behavior_witness :
    (({ clock := 0, calls := 1, events := [Event.printed "Computing greet(3,)"] } : World).calls
        = w0.calls + 1
      ∧ (memoize (instrument greet)).run [("(3,)[]", PyValue.pstr "Hello, 3!")]
          { clock := 0, calls := 1, events := [Event.printed "Computing greet(3,)"] }
          [.pint 3] [] =
        ([("(3,)[]", PyValue.pstr "Hello, 3!")],
         ({ clock := 0, calls := 1, events := [Event.printed "Computing greet(3,)"] } : World).emit
           (.printed ("Cache hit for " ++ greet.meta.name ++ pyStrTuple [.pint 3])),
         .ok (.pstr "Hello, 3!")))
    ∧ ({ clock := 0, calls := 2,
          events := [Event.printed "Computing greet(3,)", Event.printed "Computing greet(4,)"] } : World).calls
        = w0.calls + 2
    ∧ memoKey [.pint 3] [] ≠ memoKey [.pint 4] []
    ∧ cache_info_size (cache_clear [("k", PyValue.pint 1)]) = 0
    ∧ memoKey [] [("a", PyValue.pint 1), ("b", PyValue.pint 2)]
        = memoKey [] [("b", PyValue.pint 2), ("a", PyValue.pint 1)] := by
  refine ⟨?_, ?_, ?_, ?_, ?_⟩
  · exact memoize_cache_behavior.1 greet w0 [.pint 3] []
      [("(3,)[]", PyValue.pstr "Hello, 3!")]
      { clock := 0, calls := 1, events := [Event.printed "Computing greet(3,)"] }
      (.pstr "Hello, 3!") greet_preserves (by decide)
  · exact memoize_cache_behavior.2.1 greet w0 [.pint 3] [] [.pint 4] []
      [("(3,)[]", PyValue.pstr "Hello, 3!")]
      { clock := 0, calls := 1, events := [Event.printed "Computing greet(3,)"] }
      (.ok (.pstr "Hello, 3!"))
      [("(3,)[]", PyValue.pstr "Hello, 3!"), ("(4,)[]", PyValue.pstr "Hello, 4!")]
      { clock := 0, calls := 2,
        events := [Event.printed "Computing greet(3,)", Event.printed "Computing greet(4,)"] }
      (.ok (.pstr "Hello, 4!"))
      greet_preserves (by decide) (by decide) (by decide)
  · exact memoize_cache_behavior.2.2.1 (.pint 3) (.pint 4) (by decide) (by decide) (by decide)
  · exact memoize_cache_behavior.2.2.2.1 [("k", PyValue.pint 1)]
  · exact memoize_cache_behavior.2.2.2.2 []
      [("a", PyValue.pint 1), ("b", PyValue.pint 2)]
      [("b", PyValue.pint 2), ("a", PyValue.pint 1)]
      (List.Perm.swap _ _ _) (by decide)

/-- C9: passing the same value positionally and as a keyword argument
produces different cache keys even though the bound arguments coincide,
so the two call styles each invoke the inner callable and create
separate cache entries. -/
theorem memoize_positional_vs_keyword (func : PyFunc) (v : PyValue) (name : String) (w : World)
    (hpres : preservesCalls func)
    (c1 : List (String × PyValue)) (w1 : World) (r1 : Res PyValue)
    (h1 : (memoize (instrument func)).run [] w [v] [] = (c1, w1, r1))
    (c2 : List (String × PyValue)) (w2 : World) (r2 : Res PyValue)
    (h2 : (memoize (instrument func)).run c1 w1 [] [(name, v)] = (c2, w2, r2)) :
    memoKey [v] [] ≠ memoKey [] [(name, v)]
    ∧ bindArgs [(name, none)] [v] [] = bindArgs [(name, none)] [] [(name, v)]
    ∧ w2.calls = w.calls + 2
    ∧ (∀ u1 u2, r1 = .ok u1 → r2 = .ok u2 → c2.length = 2) := by
  have hne := memoKey_positional_vs_keyword_ne v name
  have h := memo_two_misses func hpres w [v] [] [] [(name, v)] hne c1 w1 r1 h1 c2 w2 r2 h2
  refine ⟨hne, ?_, h.1, h.2⟩
  simp [bindArgs, bindRest, bindOne, List.lookup]

/-- C9 witness: memoizing the one-parameter greet and calling it once
with 7 positional and once with the keyword name equal to 7 gives
distinct keys, identical bound arguments, two inner invocations and two
cache entries. -/
theorem memoize_positional_vs_keyword_witness :
    memoKey [.pint 7] [] ≠ memoKey [] [("name", .pint 7)]
    ∧ bindArgs [("name", none)] [.pint 7] [] = bindArgs [("name", none)] [] [("name", .pint 7)]
    ∧ ({ clock := 0, calls := 2,
          events := [Event.printed "Computing greet(7,)", Event.printed "Computing greet()"] } : World).calls
        = w0.calls + 2
    ∧ (∀ u1 u2, (Res.ok (PyValue.pstr "Hello, 7!") : Res PyValue) = .ok u1 →
        (Res.ok (PyValue.pstr "Hello, 7!") : Res PyValue) = .ok u2 →
        ([("(7,)[]", PyValue.pstr "Hello, 7!"),
          ("()[(\x27name\x27, 7)]", PyValue.pstr "Hello, 7!")] : List (String × PyValue)).length = 2) :=
  memoize_positional_vs_keyword greet (.pint 7) "name" w0 greet_preserves
    [("(7,)[]", PyValue.pstr "Hello, 7!")]
    { clock := 0, calls := 1, events := [Event.printed "Computing greet(7,)"] }
    (.ok (.pstr "Hello, 7!")) (by decide)
    [("(7,)[]", PyValue.pstr "Hello, 7!"), ("()[(\x27name\x27, 7)]", PyValue.pstr "Hello, 7!")]
    { clock := 0, calls := 2,
      events := [Event.printed "Computing greet(7,)", Event.printed "Computing greet()"] }
    (.ok (.pstr "Hello, 7!")) (by decide)

/-- C5: the validation decorator binds the supplied arguments to the
parameters of the inner callable, applies defaults, delegates untouched
when every configured parameter passes its isinstance check, and on a
mismatch raises, without entering the inner callable, a TypeError whose
message names the parameter, the expected type and the actual type;
concretely, the decorated create_user succeeds on John, 30 and x@y.com
and fails naming age when age is the string thirty. -/
theorem validate_types_behavior :
    (∀ (expected : List (String × PyType)) (func : PyFunc) (w : World)
        (args : List PyValue) (kwargs : List (String × PyValue)) (bound : List (String × PyValue)),
        bindArgs func.sig args kwargs = .ok bound →
        (runValidation expected bound = none →
          (validate_types expected func).run w args kwargs = func.run w args kwargs)
        ∧ (∀ e, runValidation expected bound = some e →
          (validate_types expected func).run w args kwargs = (w, .exn e)
          ∧ ∃ name ty v, (name, ty) ∈ expected ∧ List.lookup name bound = some v
              ∧ isinstance v ty = false
              ∧ e = .typeError (name ++ " must be " ++ ty.pyName ++ ", got " ++ pyTypeName v)))
    ∧ create_user_wrapped.run w0 []
        [("name", .pstr "John"), ("age", .pint 30), ("email", .pstr "x@y.com")]
        = (w0, .ok (.pdict [("name", .pstr "John"), ("age", .pint 30), ("email", .pstr "x@y.com")]))
    ∧ create_user_wrapped.run w0 []
        [("name", .pstr "John"), ("age", .pstr "thirty"), ("email", .pstr "x@y.com")]
        = (w0, .exn (.typeError "age must be int, got str")) := by
  refine ⟨?_, by decide, by decide⟩
  intro expected func w args kwargs bound hbind
  constructor
  · intro hval
    exact validate_types_pass expected func w args kwargs bound hbind hval
  · intro e hval
    exact ⟨validate_types_mismatch expected func w args kwargs bound e hbind hval,
      runValidation_some_shape expected bound e hval⟩

/-- C5 witness: instantiating the general clause on create_user with the
age mismatch produces exactly the TypeError naming age, int and str,
without running the inner callable. -/
theorem validate_types_behavior_witness :
    (validate_types [("name", PyType.tstr), ("age", PyType.tint), ("email", PyType.tstr)]
        create_user).run w0 []
        [("name", .pstr "John"), ("age", .pstr "thirty"), ("email", .pstr "x@y.com")]
      = (w0, .exn (.typeError "age must be int, got str"))
    ∧ ∃ name ty v,
        (name, ty) ∈ [("name", PyType.tstr), ("age", PyType.tint), ("email", PyType.tstr)]
        ∧ List.lookup name [("name", PyValue.pstr "John"), ("age", PyValue.pstr "thirty"),
            ("email", PyValue.pstr "x@y.com")] = some v
        ∧ isinstance v ty = false
        ∧ PyError.typeError "age must be int, got str"
            = .typeError (name ++ " must be " ++ ty.pyName ++ ", got " ++ pyTypeName v) :=
  (validate_types_behavior.1
      [("name", PyType.tstr), ("age", PyType.tint), ("email", PyType.tstr)]
      create_user w0 []
      [("name", .pstr "John"), ("age", .pstr "thirty"), ("email", .pstr "x@y.com")]
      [("name", PyValue.pstr "John"), ("age", PyValue.pstr "thirty"), ("email", PyValue.pstr "x@y.com")]
      (by decide)).2
    (.typeError "age must be int, got str") (by decide)

theorem string_append_assoc (a b c : String) : a ++ b ++ c = a ++ (b ++ c) :=
  String.ext (by simp [String.data_append])

theorem string_append_reassoc (a t x y z u w2 : String) (hlit : x ++ y ++ z ++ u = w2) :
    a ++ x ++ y ++ z ++ (u ++ t) = a ++ w2 ++ t := by
  subst hlit
  simp only [string_append_assoc]

/-- C2 counterexample: with the timer stacked outside log_calls outside
validate_types on multiply, the call multiply with a string 4 and the
int 5 fails validation, the logging wrapper records the failure, but the
trace contains no print event at all: the timing wrapper reports no
duration on the error path, refuting the part of the claim that the
failed call is still included in the timing measurement and that the
timing policy reports the measured duration before propagating the
error. -/
theorem timer_silent_on_error_cex :
    (multiply_wrapped.run w0 [.pstr "4", .pint 5] []).2 = .exn (.typeError "x must be int, got str")
    ∧ (multiply_wrapped.run w0 [.pstr "4", .pint 5] []).1.events =
        [.logged 20 "Calling multiply(4, 5)",
         .loggedError "multiply raised TypeError: x must be int, got str"]
    ∧ List.filter isTimerReport (multiply_wrapped.run w0 [.pstr "4", .pint 5] []).1.events = [] := by
  refine ⟨by decide, by decide, by decide⟩

/-- C2 amended: in the stack timer outside log_calls outside
validate_types, an argument-type mismatch prevents the inner computation
from running (the instrumentation counter is unchanged and the outcome
does not depend on the inner callable), is still observed by the logging
policy through its error record, and propagates unchanged through the
timing wrapper, which emits no timing report on the error path; the
timing report is printed only when the wrapped call succeeds, as the
successful multiply of 4 and 5 shows. -/
theorem stacked_wrappers_error_path (func : PyFunc) (w : World) (v vy : PyValue)
    (hsig : func.sig = [("x", none), ("y", none)])
    (hv : isinstance v .tint = false) :
    (multiply_stack (instrument func)).run w [v, vy] [] =
      ({ w with events := w.events ++
          [.logged INFO ("Calling " ++ func.meta.name ++ "(" ++ formatCallArgs [v, vy] [] ++ ")"),
           .loggedError (func.meta.name ++ " raised TypeError: x must be int, got " ++ pyTypeName v)] },
       .exn (.typeError ("x must be int, got " ++ pyTypeName v)))
    ∧ (multiply_wrapped.run w0 [.pint 4, .pint 5] []).1.events =
        [.logged 20 "Calling multiply(4, 5)",
         .logged 20 "multiply returned: 20",
         .printed "multiply took 0.0000 seconds to execute"]
    ∧ (multiply_wrapped.run w0 [.pint 4, .pint 5] []).2 = .ok (.pint 20) := by
  refine ⟨?_, by decide, by decide⟩
  have hbind : bindArgs (instrument func).sig [v, vy] [] = .ok [("x", v), ("y", vy)] := by
    show bindArgs func.sig [v, vy] [] = .ok [("x", v), ("y", vy)]
    rw [hsig]
    rfl
  have hval : runValidation [("x", PyType.tint), ("y", PyType.tint)] [("x", v), ("y", vy)] =
      some (.typeError ("x must be int, got " ++ pyTypeName v)) := by
    simp [runValidation, List.lookup, hv]
    exact congrArg (fun s => s ++ pyTypeName v) (by decide)
  have hinner := validate_types_mismatch [("x", PyType.tint), ("y", PyType.tint)] (instrument func)
      (w.emit (.logged INFO ("Calling " ++ func.meta.name ++ "(" ++ formatCallArgs [v, vy] [] ++ ")")))
      [v, vy] [] [("x", v), ("y", vy)] (.typeError ("x must be int, got " ++ pyTypeName v))
      hbind hval
  show (timer (log_calls INFO (validate_types [("x", PyType.tint), ("y", PyType.tint)]
      (instrument func)))).run w [v, vy] [] = _
  simp only [timer, log_calls]
  have hmeta : (validate_types [("x", PyType.tint), ("y", PyType.tint)] (instrument func)).meta
      = func.meta := rfl
  rw [hmeta, hinner]
  simp [World.emit, errTypeName, errMsg]
  exact string_append_reassoc func.meta.name (pyTypeName v) " raised " "TypeError" ": "
    "x must be int, got " " raised TypeError: x must be int, got " (by decide)

/-- C2 witness: the failing call multiply with the string 4 produces
exactly the log record, the error log and the propagated TypeError with
no timing report, and the succeeding call multiply of 4 and 5 ends with
the timing report after the result log. -/
theorem stacked_wrappers_error_path_witness :
    (multiply_stack (instrument multiply)).run w0 [.pstr "4", .pint 5] [] =
      ({ w0 with events := w0.events ++
          [.logged INFO ("Calling " ++ multiply.meta.name ++ "("
              ++ formatCallArgs [.pstr "4", .pint 5] [] ++ ")"),
           .loggedError (multiply.meta.name ++ " raised TypeError: x must be int, got "
              ++ pyTypeName (.pstr "4"))] },
       .exn (.typeError ("x must be int, got " ++ pyTypeName (.pstr "4"))))
    ∧ (multiply_wrapped.run w0 [.pint 4, .pint 5] []).1.events =
        [.logged 20 "Calling multiply(4, 5)",
         .logged 20 "multiply returned: 20",
         .printed "multiply took 0.0000 seconds to execute"]
    ∧ (multiply_wrapped.run w0 [.pint 4, .pint 5] []).2 = .ok (.pint 20) :=
  stacked_wrappers_error_path multiply w0 (.pstr "4") (.pint 5) rfl rfl

/-- C4: concretely, with three calls allowed per ten seconds, calls at
times 0, 1, 2 are admitted, a fourth call at time 3 raises the
rate-limit Exception, and a call at time 15, after the window has
passed, is admitted again; in general each call first prunes the
timestamps that left the window, a call finding the pruned window full
raises without invoking the inner callable and without touching the
world, and an admitted call records the current time and invokes the
inner callable exactly once. -/
theorem rate_limit_behavior :
    (rateLimitRun 3 10 [0, 1, 2, 3, 15] []).2 =
      [.ok (), .ok (), .ok (),
       .exn (.exception "Rate limit exceeded: 3 calls per 10 seconds"), .ok ()]
    ∧ (∀ (maxCalls timeWindow now : Nat) (calls : List Nat),
        (maxCalls ≤ (calls.filter (fun t => now - t < timeWindow)).length →
          rateLimitStep maxCalls timeWindow now calls =
            (calls.filter (fun t => now - t < timeWindow),
             .exn (.exception ("Rate limit exceeded: " ++ natRepr maxCalls ++ " calls per "
               ++ natRepr timeWindow ++ " seconds"))))
        ∧ ((calls.filter (fun t => now - t < timeWindow)).length < maxCalls →
          rateLimitStep maxCalls timeWindow now calls =
            (calls.filter (fun t => now - t < timeWindow) ++ [now], .ok ())))
    ∧ (∀ (maxCalls timeWindow : Nat) (func : PyFunc) (st : List Nat) (w : World)
        (args : List PyValue) (kwargs : List (String × PyValue)),
        maxCalls ≤ (st.filter (fun t => w.clock - t < timeWindow)).length →
        (rate_limit maxCalls timeWindow (instrument func)).run st w args kwargs =
          (st.filter (fun t => w.clock - t < timeWindow), w,
           .exn (.exception ("Rate limit exceeded: " ++ natRepr maxCalls ++ " calls per "
             ++ natRepr timeWindow ++ " seconds"))))
    ∧ (∀ (maxCalls timeWindow : Nat) (func : PyFunc) (st : List Nat) (w : World)
        (args : List PyValue) (kwargs : List (String × PyValue)),
        preservesCalls func →
        (st.filter (fun t => w.clock - t < timeWindow)).length < maxCalls →
        ((rate_limit maxCalls timeWindow (instrument func)).run st w args kwargs).1 =
            st.filter (fun t => w.clock - t < timeWindow) ++ [w.clock]
          ∧ (((rate_limit maxCalls timeWindow (instrument func)).run st w args kwargs).2.1).calls
              = w.calls + 1) := by
  refine ⟨by decide, ?_, ?_, ?_⟩
  · intro maxCalls timeWindow now calls
    constructor
    · intro h
      simp [rateLimitStep, h]
    · intro h
      have h2 : ¬ maxCalls ≤ (calls.filter (fun t => now - t < timeWindow)).length := by omega
      simp [rateLimitStep, h2]
  · intro maxCalls timeWindow func st w args kwargs h
    simp [rate_limit, rateLimitStep, h]
  · intro maxCalls timeWindow func st w args kwargs hpres h
    have h2 : ¬ maxCalls ≤ (st.filter (fun t => w.clock - t < timeWindow)).length := by omega
    constructor
    · simp [rate_limit, rateLimitStep, h2]
    · have hcal := instrument_preserves func hpres w args kwargs
      simp [rate_limit, rateLimitStep, h2]
      rcases hres : (instrument func).run w args kwargs with ⟨wf, rf⟩
      rw [hres] at hcal
      simpa using hcal

/-- C4 witness: the step function instantiated on small windows shows one
rejection leaving the pruned state, and an admitted call through the
wrapper on api_call records the clock and enters the inner callable
once. -/
theorem rate_limit_behavior_witness :
    rateLimitStep 1 10 6 [5] = ([5], .exn (.exception "Rate limit exceeded: 1 calls per 10 seconds"))
    ∧ rateLimitStep 3 10 3 [0, 1, 2] =
        ([0, 1, 2], .exn (.exception "Rate limit exceeded: 3 calls per 10 seconds"))
    ∧ rateLimitStep 3 10 15 [0, 1, 2] = ([15], .ok ())
    ∧ (rate_limit 1 10 (instrument api_call)).run [5] { clock := 6, calls := 0, events := [] } [] [] =
        ([5], { clock := 6, calls := 0, events := [] },
         .exn (.exception "Rate limit exceeded: 1 calls per 10 seconds"))
    ∧ ((rate_limit 3 10 (instrument api_call)).run [] w0 [] []).1 = [0]
    ∧ (((rate_limit 3 10 (instrument api_call)).run [] w0 [] []).2.1).calls = w0.calls + 1 := by
  refine ⟨?_, ?_, ?_, ?_, ?_, ?_⟩
  · exact (rate_limit_behavior.2.1 1 10 6 [5]).1 (by decide)
  · exact (rate_limit_behavior.2.1 3 10 3 [0, 1, 2]).1 (by decide)
  · exact (rate_limit_behavior.2.1 3 10 15 [0, 1, 2]).2 (by decide)
  · exact rate_limit_behavior.2.2.1 1 10 api_call [5] { clock := 6, calls := 0, events := [] } [] []
      (by decide)
  · exact (rate_limit_behavior.2.2.2 3 10 api_call [] w0 [] [] api_call_preserves (by decide)).1
  · exact (rate_limit_behavior.2.2.2 3 10 api_call [] w0 [] [] api_call_preserves (by decide)).2

/-- C10: a call rejected by the rate limit appends no timestamp: the
recorded window after the rejection is exactly the pruned window, every
remaining timestamp was already recorded before, the call raises, and
for any later call times the admission decisions are the same as if the
rejected call had never happened. -/
theorem rate_limit_rejection_consumes_no_quota (maxCalls timeWindow now : Nat) (calls : List Nat)
    (h : maxCalls ≤ (calls.filter (fun t => now - t < timeWindow)).length) :
    (rateLimitStep maxCalls timeWindow now calls).1 = calls.filter (fun t => now - t < timeWindow)
    ∧ (∀ x ∈ (rateLimitStep maxCalls timeWindow now calls).1, x ∈ calls)
    ∧ (rateLimitStep maxCalls timeWindow now calls).2.isErr = true
    ∧ (∀ ts : List Nat, (∀ t ∈ ts, now ≤ t) →
        (rateLimitRun maxCalls timeWindow ts (rateLimitStep maxCalls timeWindow now calls).1).2 =
          (rateLimitRun maxCalls timeWindow ts calls).2) := by
  have hstep : (rateLimitStep maxCalls timeWindow now calls).1 =
      calls.filter (fun t => now - t < timeWindow) := by
    simp [rateLimitStep, h]
  refine ⟨hstep, ?_, ?_, ?_⟩
  · intro x hx
    rw [hstep] at hx
    exact List.mem_of_mem_filter hx
  · simp [rateLimitStep, h, Res.isErr]
  · intro ts hts
    rw [hstep]
    exact rateLimitRun_pruned_decisions maxCalls timeWindow now calls ts hts

/-- C10 witness: a window already holding time 5 rejects a call at time
6 under a one-call limit, keeps exactly the old timestamp, and a later
call at time 7 is decided the same with or without the rejected call. -/
theorem rate_limit_rejection_consumes_no_quota_witness :
    (rateLimitStep 1 10 6 [5]).1 = List.filter (fun t => 6 - t < 10) [5]
    ∧ (∀ x ∈ (rateLimitStep 1 10 6 [5]).1, x ∈ [5])
    ∧ (rateLimitStep 1 10 6 [5]).2.isErr = true
    ∧ (∀ ts : List Nat, (∀ t ∈ ts, 6 ≤ t) →
        (rateLimitRun 1 10 ts (rateLimitStep 1 10 6 [5]).1).2 =
          (rateLimitRun 1 10 ts [5]).2) :=
  rate_limit_rejection_consumes_no_quota 1 10 6 [5] (by decide)
